import Mathlib

/-!
Verification of the script/linker-configuration layer of a bitcode
compilation library.  The development shallowly embeds the two source
files `lib/bcc/Script.h` and `lib/Support/LinkerConfig.cpp` as Lean
definitions and proves properties about them.
-/

set_option autoImplicit false

namespace Bcc

/-- Modelled from the header `bcc/bcc.h` (not among the sources): `BCCenum`
is an integral error-code type whose distinguished clear value is
`BCC_NO_ERROR`.  Only equality with the clear value matters to the code
under verification, so codes are embedded as natural numbers. -/
abbrev BCCenum := Nat

/-- The distinguished "no error" code of the `bcc` API. -/
def BCC_NO_ERROR : BCCenum := 0

namespace ScriptStatus

/-- The status enumeration of `Script.h`.  In the source the `Cached`
enumerator is commented out (`//Cached,`), so the type has exactly the
two values `Unknown` and `Compiled`. -/
inductive StatusType where
  | Unknown
  | Compiled
  deriving DecidableEq, Repr, Fintype

end ScriptStatus

/-- The anonymous union inside `Script`: storage holding either a
`ScriptCompiled*` or a `ScriptCached*`.  The pointees are opaque to the
sources, so the pointers are embedded as natural-number handles. -/
inductive Backend where
  | mCompiled (p : Nat)
  | mCached (p : Nat)
  deriving DecidableEq, Repr

/-- The state of a `bcc::Script` object: the latched error code, the
status tag, the backend union and the registered external symbol lookup
hook (function pointer and context, embedded as opaque handles). -/
structure Script where
  mErrorCode : BCCenum
  mStatus : ScriptStatus.StatusType
  backend : Backend
  mpExtSymbolLookupFn : Nat
  mpExtSymbolLookupFnContext : Nat
  deriving DecidableEq, Repr

namespace Script

/-- The constructor `Script()` : it initializes `mErrorCode` to
`BCC_NO_ERROR` and `mStatus` to `Unknown`; the union and the hook members
are left indeterminate, which the embedding captures by taking them as
parameters. -/
def init (b : Backend) (fn ctx : Nat) : Script :=
  { mErrorCode := BCC_NO_ERROR
    mStatus := ScriptStatus.StatusType.Unknown
    backend := b
    mpExtSymbolLookupFn := fn
    mpExtSymbolLookupFnContext := ctx }

/-- `Script::setError`: writes `error` into the slot only when the slot
currently holds `BCC_NO_ERROR` and `error` is itself a real error. -/
def setError (s : Script) (error : BCCenum) : Script :=
  if s.mErrorCode = BCC_NO_ERROR ∧ error ≠ BCC_NO_ERROR then
    { s with mErrorCode := error }
  else
    s

/-- `Script::getError`: returns the current code and resets the slot to
`BCC_NO_ERROR`.  The pair is (returned code, state after the call). -/
def getError (s : Script) : BCCenum × Script :=
  (s.mErrorCode, { s with mErrorCode := BCC_NO_ERROR })

end Script

end Bcc

open Bcc

/-- C1 counterexample: the claim presupposes two distinct resolved status
tags, `Compiled` and `Cached`.  The status enumeration of the source has
no two distinct values other than `Unknown`: `Cached` is commented out. -/
theorem script_status_no_two_resolved_tags :
    ¬ ∃ a b : ScriptStatus.StatusType,
        a ≠ ScriptStatus.StatusType.Unknown ∧
        b ≠ ScriptStatus.StatusType.Unknown ∧ a ≠ b := by
  decide

/-- C1 (amended): every `Script` whose status is not `Unknown` (i.e. that
is resolved) has status exactly `Compiled`; the enumeration declares only
`Unknown` and `Compiled`, the `Cached` tag being commented out, so no
operation can leave a `Cached`-tagged state. -/
theorem script_resolved_status_is_compiled (s : Script)
    (h : s.mStatus ≠ ScriptStatus.StatusType.Unknown) :
    s.mStatus = ScriptStatus.StatusType.Compiled := by
  cases hs : s.mStatus with
  | Unknown => exact absurd hs h
  | Compiled => rfl

/-- C1 witness: the amended statement at a concrete resolved script. -/
theorem script_resolved_status_is_compiled_witness :
    ({ mErrorCode := 0, mStatus := ScriptStatus.StatusType.Compiled,
       backend := Backend.mCompiled 0, mpExtSymbolLookupFn := 0,
       mpExtSymbolLookupFnContext := 0 } : Script).mStatus =
      ScriptStatus.StatusType.Compiled :=
  script_resolved_status_is_compiled _ (by decide)

/-- C2: first error wins.  If the slot already holds a real error `E1`,
then `setError E2` for any real `E2` leaves the slot holding `E1`, and the
next `getError` returns `E1`. -/
theorem setError_first_error_wins (s : Script) (E1 E2 : BCCenum)
    (hs : s.mErrorCode = E1) (h1 : E1 ≠ BCC_NO_ERROR)
    (h2 : E2 ≠ BCC_NO_ERROR) :
    (s.setError E2).mErrorCode = E1 ∧ ((s.setError E2).getError).1 = E1 := by
  have hset : s.setError E2 = s := by
    unfold Script.setError
    rw [if_neg]
    intro hcl
    exact h1 (hs ▸ hcl.1)
  rw [hset]
  exact ⟨hs, hs⟩

/-- C2 witness: first-error-wins at a concrete script holding error 3,
with a second write of error 5. -/
theorem setError_first_error_wins_witness :
    (((Script.init (Backend.mCompiled 0) 0 0).setError 3).setError 5).mErrorCode = 3 ∧
      ((((Script.init (Backend.mCompiled 0) 0 0).setError 3).setError 5).getError).1 = 3 :=
  setError_first_error_wins ((Script.init (Backend.mCompiled 0) 0 0).setError 3) 3 5
    (by decide) (by decide) (by decide)

/-- C3: get-and-clear.  From a clear slot, after `setError E` for a real
`E`, the first `getError` returns `E` and the second returns
`BCC_NO_ERROR`. -/
theorem getError_returns_then_clears (s : Script) (E : BCCenum)
    (hs : s.mErrorCode = BCC_NO_ERROR) (hE : E ≠ BCC_NO_ERROR) :
    ((s.setError E).getError).1 = E ∧
      ((((s.setError E).getError).2).getError).1 = BCC_NO_ERROR := by
  have hset : (s.setError E).mErrorCode = E := by
    unfold Script.setError
    rw [if_pos ⟨hs, hE⟩]
  exact ⟨hset, rfl⟩

/-- C3 witness: get-and-clear at a freshly constructed script and error 7. -/
theorem getError_returns_then_clears_witness :
    (((Script.init (Backend.mCompiled 0) 0 0).setError 7).getError).1 = 7 ∧
      (((((Script.init (Backend.mCompiled 0) 0 0).setError 7).getError).2).getError).1 =
        BCC_NO_ERROR :=
  getError_returns_then_clears (Script.init (Backend.mCompiled 0) 0 0) 7 (by decide)
    (by decide)

/-- C9: `setError BCC_NO_ERROR` is the identity on every script state
(even when the slot is clear); `setError` never changes a slot that
already holds a real error, so `getError` is the only clearing operation;
and a freshly constructed script has a clear slot, so its first
`getError` returns `BCC_NO_ERROR`. -/
theorem setError_no_error_frame (s : Script) :
    s.setError BCC_NO_ERROR = s ∧
      (∀ e : BCCenum, s.mErrorCode ≠ BCC_NO_ERROR →
        (s.setError e).mErrorCode = s.mErrorCode) ∧
      (∀ b fn ctx, ((Script.init b fn ctx).getError).1 = BCC_NO_ERROR) := by
  refine ⟨?_, ?_, fun b fn ctx => rfl⟩
  · unfold Script.setError
    rw [if_neg]
    intro hcl
    exact hcl.2 rfl
  · intro e hne
    unfold Script.setError
    rw [if_neg]
    intro hcl
    exact hne hcl.1

/-- C9 witness: the frame property at a concrete script holding error 4. -/
theorem setError_no_error_frame_witness :
    (((Script.init (Backend.mCached 1) 2 3).setError 4).setError 9).mErrorCode =
      ((Script.init (Backend.mCached 1) 2 3).setError 4).mErrorCode :=
  (setError_no_error_frame ((Script.init (Backend.mCached 1) 2 3).setError 4)).2.1 9
    (by decide)

namespace LinkerConfigModel

/-- Observable steps of `LinkerConfig::~LinkerConfig()`, in the order the
destructor body performs them. -/
inductive DtorEvent where
  | deleteLDInfo
  | runInterruptHandlers
  | diagPrinterFinish
  | deleteDiagLineInfo
  | deleteDiagPrinter
  deriving DecidableEq, BEq, Repr

/-- The trace of `LinkerConfig::~LinkerConfig()` as a function of
`mDiagPrinter->getNumErrors()`: delete `mLDInfo`; if the error count is
nonzero run the globally registered interrupt handlers; finish the
diagnostic printer; then delete the diagnostic line-info and printer
objects. -/
def dtorTrace (numErrors : Nat) : List DtorEvent :=
  [DtorEvent.deleteLDInfo] ++
    (if numErrors ≠ 0 then [DtorEvent.runInterruptHandlers] else []) ++
    [DtorEvent.diagPrinterFinish, DtorEvent.deleteDiagLineInfo,
     DtorEvent.deleteDiagPrinter]

end LinkerConfigModel

open LinkerConfigModel

/-- C4: in the destructor trace, the interrupt handlers run if and only if
the diagnostic printer recorded at least one error; when they run they run
before the printer is finished; and the printer is always finished before
either diagnostic object is deleted. -/
theorem dtorTrace_handler_and_finish_order (numErrors : Nat) :
    (DtorEvent.runInterruptHandlers ∈ dtorTrace numErrors ↔ numErrors ≠ 0) ∧
      (dtorTrace numErrors).indexOf DtorEvent.diagPrinterFinish <
        (dtorTrace numErrors).indexOf DtorEvent.deleteDiagLineInfo ∧
      (dtorTrace numErrors).indexOf DtorEvent.diagPrinterFinish <
        (dtorTrace numErrors).indexOf DtorEvent.deleteDiagPrinter ∧
      (numErrors ≠ 0 →
        (dtorTrace numErrors).indexOf DtorEvent.runInterruptHandlers <
          (dtorTrace numErrors).indexOf DtorEvent.diagPrinterFinish) := by
  rcases numErrors with _ | n
  · have h0 : dtorTrace 0 =
        [DtorEvent.deleteLDInfo, DtorEvent.diagPrinterFinish,
         DtorEvent.deleteDiagLineInfo, DtorEvent.deleteDiagPrinter] := by
      simp [dtorTrace]
    rw [h0]
    refine ⟨by simp, by decide, by decide, by simp⟩
  · have h1 : dtorTrace (n + 1) =
        [DtorEvent.deleteLDInfo, DtorEvent.runInterruptHandlers,
         DtorEvent.diagPrinterFinish, DtorEvent.deleteDiagLineInfo,
         DtorEvent.deleteDiagPrinter] := by
      simp [dtorTrace]
    rw [h1]
    refine ⟨by simp, by decide, by decide, fun _ => by decide⟩

/-- C4 witness: the ordering facts at one recorded error. -/
theorem dtorTrace_handler_and_finish_order_witness :
    (dtorTrace 1).indexOf DtorEvent.runInterruptHandlers <
      (dtorTrace 1).indexOf DtorEvent.diagPrinterFinish :=
  (dtorTrace_handler_and_finish_order 1).2.2.2 (by decide)

namespace LinkerConfigModel

/-- Non-fatal diagnostics emitted by the linker configuration: the
`mcld::diag::rewrap` warning (carrying the symbol and the colliding
rename-table key) and the `warn_cannot_open_search_dir` warning. -/
inductive Warn where
  | rewrap (sym : String) (key : String)
  | cannotOpenSearchDir (name : String)
  deriving DecidableEq, Repr

/-- The symbol rename table `mLDInfo->scripts().renameMap()`, embedded as
an association list from keys to values. -/
abbrev RenameMap := List (String × String)

/-- Whether the rename table holds an entry for key `k`. -/
def containsKey (m : RenameMap) (k : String) : Bool :=
  match m with
  | [] => false
  | e :: es => if e.1 = k then true else containsKey es k

/-- The value the rename table maps key `k` to, if any. -/
def lookupRename (m : RenameMap) (k : String) : Option String :=
  match m with
  | [] => none
  | e :: es => if e.1 = k then some e.2 else lookupRename es k

/-- Overwrites the value of the entry of key `k` with `v`. -/
def setValueAt (k v : String) (m : RenameMap) : RenameMap :=
  match m with
  | [] => []
  | e :: es => if e.1 = k then (k, v) :: es else e :: setValueAt k v es

/-- The `StringEntryMap::insert` / `StringEntry::setValue` pattern of the
source: insert key `k` (reporting in the second component whether it
already existed) and set its value to `v`. -/
def insertRename (m : RenameMap) (k v : String) : RenameMap × Bool :=
  if containsKey m k then (setValueAt k v m, true) else (m ++ [(k, v)], false)

/-- `LinkerConfig::addWrap`: map `X` to `__wrap_X` and `__real_X` to `X`,
warning (with `mcld::diag::rewrap`) for each key that already existed.
The result is the updated rename table and the warnings emitted. -/
def addWrap (m : RenameMap) (X : String) : RenameMap × List Warn :=
  let p1 := insertRename m X ("__wrap_" ++ X)
  let w1 := if p1.2 then [Warn.rewrap X ("__wrap_" ++ X)] else []
  let p2 := insertRename p1.1 ("__real_" ++ X) X
  let w2 := if p2.2 then [Warn.rewrap X ("__real_" ++ X)] else []
  (p2.1, w1 ++ w2)

/-- `LinkerConfig::addPortable`: map `X` to `X_portable` and `__real_X`
to `X`, warning for each key that already existed. -/
def addPortable (m : RenameMap) (X : String) : RenameMap × List Warn :=
  let p1 := insertRename m X (X ++ "_portable")
  let w1 := if p1.2 then [Warn.rewrap X (X ++ "_portable")] else []
  let p2 := insertRename p1.1 ("__real_" ++ X) X
  let w2 := if p2.2 then [Warn.rewrap X ("__real_" ++ X)] else []
  (p2.1, w1 ++ w2)

theorem lookupRename_setValueAt_self (m : RenameMap) (k v : String)
    (hc : containsKey m k = true) :
    lookupRename (setValueAt k v m) k = some v := by
  induction m with
  | nil => simp [containsKey] at hc
  | cons e es ih =>
    by_cases hek : e.1 = k
    · simp [setValueAt, hek, lookupRename]
    · simp only [containsKey, if_neg hek] at hc
      simp only [setValueAt, if_neg hek, lookupRename, if_neg hek]
      exact ih hc

theorem lookupRename_setValueAt_other (m : RenameMap) (k v k2 : String)
    (hne : k2 ≠ k) :
    lookupRename (setValueAt k v m) k2 = lookupRename m k2 := by
  induction m with
  | nil => rfl
  | cons e es ih =>
    by_cases hek : e.1 = k
    · subst hek
      simp [setValueAt, lookupRename, hne.symm]
    · simp only [setValueAt, if_neg hek, lookupRename]
      by_cases he2 : e.1 = k2
      · simp [he2]
      · simp [he2, ih]

theorem lookupRename_append_self (m : RenameMap) (k v : String)
    (hc : containsKey m k = false) :
    lookupRename (m ++ [(k, v)]) k = some v := by
  induction m with
  | nil => simp [lookupRename]
  | cons e es ih =>
    simp only [containsKey] at hc
    by_cases hek : e.1 = k
    · rw [if_pos hek] at hc
      exact absurd hc (by decide)
    · rw [if_neg hek] at hc
      simp only [List.cons_append, lookupRename, if_neg hek]
      exact ih hc

theorem lookupRename_append_other (m : RenameMap) (k v k2 : String)
    (hne : k2 ≠ k) :
    lookupRename (m ++ [(k, v)]) k2 = lookupRename m k2 := by
  induction m with
  | nil => simp [lookupRename, hne.symm]
  | cons e es ih =>
    by_cases hek : e.1 = k2
    · simp [lookupRename, hek]
    · simp only [List.cons_append, lookupRename, if_neg hek]
      exact ih

theorem containsKey_setValueAt (m : RenameMap) (k v k2 : String) :
    containsKey (setValueAt k v m) k2 = containsKey m k2 := by
  induction m with
  | nil => rfl
  | cons e es ih =>
    by_cases hek : e.1 = k
    · simp only [setValueAt, if_pos hek, containsKey, hek]
    · simp only [setValueAt, if_neg hek, containsKey, ih]

theorem containsKey_append (m : RenameMap) (k v k2 : String) :
    containsKey (m ++ [(k, v)]) k2 = (containsKey m k2 || decide (k = k2)) := by
  induction m with
  | nil => simp [containsKey]
  | cons e es ih =>
    by_cases hek : e.1 = k2
    · simp [containsKey, hek]
    · simp only [List.cons_append, containsKey, if_neg hek, List.append_eq, ih]

theorem lookupRename_insertRename (m : RenameMap) (k v k2 : String) :
    lookupRename (insertRename m k v).1 k2 =
      if k2 = k then some v else lookupRename m k2 := by
  unfold insertRename
  by_cases hc : containsKey m k
  · rw [if_pos hc]
    by_cases hk2 : k2 = k
    · subst hk2
      rw [if_pos rfl]
      exact lookupRename_setValueAt_self m k2 v hc
    · rw [if_neg hk2]
      exact lookupRename_setValueAt_other m k v k2 hk2
  · rw [if_neg hc]
    by_cases hk2 : k2 = k
    · subst hk2
      rw [if_pos rfl]
      exact lookupRename_append_self m k2 v (by simpa using hc)
    · rw [if_neg hk2]
      exact lookupRename_append_other m k v k2 hk2

theorem containsKey_insertRename (m : RenameMap) (k v k2 : String) :
    containsKey (insertRename m k v).1 k2 =
      (containsKey m k2 || decide (k = k2)) := by
  unfold insertRename
  by_cases hc : containsKey m k
  · rw [if_pos hc]
    simp only [containsKey_setValueAt]
    by_cases hkk : k = k2
    · subst hkk
      simp [hc]
    · simp [hkk]
  · rw [if_neg hc]
    exact containsKey_append m k v k2


theorem insertRename_exist (m : RenameMap) (k v : String) :
    (insertRename m k v).2 = containsKey m k := by
  unfold insertRename
  by_cases hc : containsKey m k <;> simp [hc]

theorem append_real_ne (X : String) : "__real_" ++ X ≠ X := by
  intro h
  have hl := congrArg String.length h
  rw [String.length_append] at hl
  have h7 : ("__real_" : String).length = 7 := by decide
  rw [h7] at hl
  omega

end LinkerConfigModel

open LinkerConfigModel in
/-- C5: `addWrap X` installs exactly the two mappings `X -> __wrap_X` and
`__real_X -> X`, and `addPortable X` installs exactly the two mappings
`X -> X_portable` and `__real_X -> X`: every other key of the rename
table is left unchanged. -/
theorem addWrap_addPortable_install_exactly (m : RenameMap) (X k : String) :
    lookupRename (addWrap m X).1 k =
      (if k = X then some ("__wrap_" ++ X)
       else if k = "__real_" ++ X then some X
       else lookupRename m k) ∧
    lookupRename (addPortable m X).1 k =
      (if k = X then some (X ++ "_portable")
       else if k = "__real_" ++ X then some X
       else lookupRename m k) := by
  have hXr : X ≠ "__real_" ++ X := fun h => append_real_ne X h.symm
  constructor <;>
    (simp only [addWrap, addPortable]
     rw [lookupRename_insertRename, lookupRename_insertRename]
     by_cases hkX : k = X
     · subst hkX
       rw [if_neg hXr, if_pos rfl, if_pos rfl]
     · by_cases hkr : k = "__real_" ++ X
       · rw [if_pos hkr, if_neg hkX, if_pos hkr]
       · rw [if_neg hkr, if_neg hkX, if_neg hkX, if_neg hkr])

open LinkerConfigModel in
/-- C6 counterexample: with a table holding only the key `__real_a`, the
symbol `a` has no rename-table entry, yet `addWrap a` emits a warning
(for the collision on the companion key `__real_a`). -/
theorem addWrap_warning_without_prior_entry :
    lookupRename [("__real_a", "x")] "a" = none ∧
      (addWrap [("__real_a", "x")] "a").2 ≠ [] := by
  constructor
  · rfl
  · decide

open LinkerConfigModel in
/-- C6 (amended): registering a rename never fails and overwrites any
prior mapping; a rewrap warning is emitted exactly when one of the two
keys the registration installs (`X` or `__real_X`) already has an entry
in the table — in particular whenever `X` itself already has one — and
no warning is emitted when neither installed key has a prior entry. -/
theorem rename_collision_overwrites_and_warns (m : RenameMap) (X : String) :
    ((addWrap m X).2 = [] ↔
       containsKey m X = false ∧ containsKey m ("__real_" ++ X) = false) ∧
    (containsKey m X = true →
       (addWrap m X).2 ≠ [] ∧
         lookupRename (addWrap m X).1 X = some ("__wrap_" ++ X)) ∧
    ((addPortable m X).2 = [] ↔
       containsKey m X = false ∧ containsKey m ("__real_" ++ X) = false) ∧
    (containsKey m X = true →
       (addPortable m X).2 ≠ [] ∧
         lookupRename (addPortable m X).1 X = some (X ++ "_portable")) := by
  have hXr : X ≠ "__real_" ++ X := fun h => append_real_ne X h.symm
  have hlw : lookupRename (addWrap m X).1 X = some ("__wrap_" ++ X) := by
    simp only [addWrap]
    rw [lookupRename_insertRename, if_neg hXr, lookupRename_insertRename,
      if_pos rfl]
  have hlp : lookupRename (addPortable m X).1 X = some (X ++ "_portable") := by
    simp only [addPortable]
    rw [lookupRename_insertRename, if_neg hXr, lookupRename_insertRename,
      if_pos rfl]
  have hwarn : ∀ w1 w2 : List Warn,
      (addWrap m X).2 = (if containsKey m X then [Warn.rewrap X ("__wrap_" ++ X)]
        else []) ++ (if containsKey m ("__real_" ++ X) then
          [Warn.rewrap X ("__real_" ++ X)] else []) := by
    intro _ _
    simp only [addWrap, insertRename_exist, containsKey_insertRename]
    simp [hXr]
  have hwarnp : (addPortable m X).2 =
      (if containsKey m X then [Warn.rewrap X (X ++ "_portable")]
        else []) ++ (if containsKey m ("__real_" ++ X) then
          [Warn.rewrap X ("__real_" ++ X)] else []) := by
    simp only [addPortable, insertRename_exist, containsKey_insertRename]
    simp [hXr]
  refine ⟨?_, fun h1 => ⟨?_, hlw⟩, ?_, fun h1 => ⟨?_, hlp⟩⟩
  · rw [hwarn [] []]
    by_cases h1 : containsKey m X <;>
      by_cases h2 : containsKey m ("__real_" ++ X) <;> simp [h1, h2]
  · rw [hwarn [] [], if_pos h1]
    simp
  · rw [hwarnp]
    by_cases h1 : containsKey m X <;>
      by_cases h2 : containsKey m ("__real_" ++ X) <;> simp [h1, h2]
  · rw [hwarnp, if_pos h1]
    simp

open LinkerConfigModel in
/-- C6 witness: registering a wrap for a symbol that already has an entry
warns and overwrites. -/
theorem rename_collision_overwrites_and_warns_witness :
    (addWrap [("a", "v")] "a").2 ≠ [] ∧
      lookupRename (addWrap [("a", "v")] "a").1 "a" = some ("__wrap_" ++ "a") :=
  (rename_collision_overwrites_and_warns [("a", "v")] "a").2.1 (by decide)

namespace LinkerConfigModel

/-- The filesystem facts `addSearchDir` consults: the `exists` and
`is_directory` probes of `mcld::sys::fs`.  Modelled from the spec: the
`mcld::MCLDDirectory` wrapper is an external collaborator whose sources
are not part of this repository; per the spec's contract the probes are
applied to the given path itself. -/
structure FileSystem where
  pathExists : String → Bool
  is_directory : String → Bool

/-- `LinkerConfig::addSearchDir`: when the path exists and is a
directory it is appended to the search-directory list; otherwise a
`warn_cannot_open_search_dir` warning naming the path is emitted and the
list is left unchanged.  The result is (new list, warnings emitted). -/
def addSearchDir (fs : FileSystem) (dirs : List String) (P : String) :
    List String × List Warn :=
  if fs.pathExists P && fs.is_directory P then
    (dirs ++ [P], [])
  else
    (dirs, [Warn.cannotOpenSearchDir P])

/-- The target registry consulted by `initializeTarget`:
`mcld::TargetRegistry::lookupTarget` either yields a target (embedded as
an opaque handle) or fails, filling in an error message. -/
structure TargetRegistry where
  lookupTarget : String → Option Nat
  lookupError : String → String

/-- Diagnostics the linker configuration writes through `ALOGE`.  The
target-initialization failure message names the triple and carries the
registry's error text. -/
inductive LogEvent where
  | cannotInitTarget (triple : String) (err : String)
  deriving DecidableEq, Repr

/-- `LinkerConfig::initializeTarget`: looks the triple up in the target
registry; on success stores the target and returns true; on failure logs
an error naming the triple and returns false.  The result is
(return value, `mTarget` after the call, log emitted). -/
def initializeTarget (reg : TargetRegistry) (mTriple : String) :
    Bool × Option Nat × List LogEvent :=
  match reg.lookupTarget mTriple with
  | some t => (true, some t, [])
  | none =>
      (false, none, [LogEvent.cannotInitTarget mTriple (reg.lookupError mTriple)])

end LinkerConfigModel

open LinkerConfigModel in
/-- C7: `addSearchDir` appends the path to the search-directory list
when it exists and is a directory, emitting no warning; otherwise it
returns without failing, leaves the list unchanged, and emits a warning
naming the path. -/
theorem addSearchDir_adds_iff_directory (fs : FileSystem)
    (dirs : List String) (P : String) :
    ((fs.pathExists P && fs.is_directory P) = true →
       addSearchDir fs dirs P = (dirs ++ [P], [])) ∧
    ((fs.pathExists P && fs.is_directory P) = false →
       addSearchDir fs dirs P = (dirs, [Warn.cannotOpenSearchDir P])) := by
  constructor
  · intro h
    simp [addSearchDir, h]
  · intro h
    simp [addSearchDir, h]

open LinkerConfigModel in
/-- C7 witness: on a filesystem where every path is a directory, the
path is appended with no warning. -/
theorem addSearchDir_adds_iff_directory_witness :
    addSearchDir ⟨fun _ => true, fun _ => true⟩ [] "/system/lib" =
      (["/system/lib"], []) :=
  (addSearchDir_adds_iff_directory ⟨fun _ => true, fun _ => true⟩ []
    "/system/lib").1 rfl

open LinkerConfigModel in
/-- C8: target-triple resolution fails closed.  `initializeTarget`
returns true exactly when the registry supports the triple; the stored
target is the registry's (non-null on success, null on failure); and on
failure the emitted log is the single error event naming the triple with
the registry's descriptive message. -/
theorem initializeTarget_fails_closed (reg : TargetRegistry)
    (triple : String) :
    ((initializeTarget reg triple).1 = (reg.lookupTarget triple).isSome) ∧
    ((initializeTarget reg triple).2.1 = reg.lookupTarget triple) ∧
    (reg.lookupTarget triple = none →
      (initializeTarget reg triple).2.2 =
        [LogEvent.cannotInitTarget triple (reg.lookupError triple)]) ∧
    (reg.lookupTarget triple ≠ none →
      (initializeTarget reg triple).2.2 = []) := by
  cases h : reg.lookupTarget triple with
  | none => exact ⟨by simp [initializeTarget, h], by simp [initializeTarget, h],
      fun _ => by simp [initializeTarget, h], fun hn => absurd h (h ▸ hn)⟩
  | some t => exact ⟨by simp [initializeTarget, h], by simp [initializeTarget, h],
      fun hn => absurd hn (by simp [h]), fun _ => by simp [initializeTarget, h]⟩

open LinkerConfigModel in
/-- C8 witness: an empty registry rejects any triple with an error event
naming it. -/
theorem initializeTarget_fails_closed_witness :
    (initializeTarget ⟨fun _ => none, fun _ => "unsupported"⟩ "armv7-none-linux-gnueabi").2.2 =
      [LogEvent.cannotInitTarget "armv7-none-linux-gnueabi" "unsupported"] :=
  (initializeTarget_fails_closed ⟨fun _ => none, fun _ => "unsupported"⟩
    "armv7-none-linux-gnueabi").2.2.1 rfl

namespace LinkerConfigModel

/-- The `mcld::ZOption` kinds that `LinkerConfig::setZOption` can append
to the linker options. -/
inductive ZOptionKind where
  | CombReloc
  | NoCombReloc
  | Defs
  | ExecStack
  | NoExecStack
  | InitFirst
  | InterPose
  | LoadFltr
  | MulDefs
  | NoCopyReloc
  | NoDefaultLib
  | NoDelete
  | NoDLOpen
  | NoDump
  | Relro
  | NoRelro
  | Lazy
  | Now
  | Origin
  deriving DecidableEq, Repr

/-- The bit tests `setZOption` performs on its `pOptions` bitmask, in
source order.  Modelled from the spec/header: the flag constants
`kCombReloc`, `kDefs`, ... live in `bcc/Support/LinkerConfig.h`, which is
not among the sources; the `.cpp` only ever uses the Boolean outcome of
`pOptions & kFlag`, so the embedding takes that tuple of Booleans. -/
structure ZFlags where
  combReloc : Bool
  defs : Bool
  execStack : Bool
  initFirst : Bool
  interPose : Bool
  loadFltr : Bool
  mulDefs : Bool
  noCopyReloc : Bool
  noDefaultLib : Bool
  noDelete : Bool
  noDLOpen : Bool
  noDump : Bool
  relro : Bool
  lazy : Bool
  origin : Bool

/-- `LinkerConfig::setZOption`: the sequence of `addZOption` calls it
performs, in source order.  Four flags come in if/else pairs (appending
the negative or eager kind when the bit is clear); the others are
appended only when their bit is set. -/
def setZOption (f : ZFlags) : List ZOptionKind :=
  (if f.combReloc then [ZOptionKind.CombReloc] else [ZOptionKind.NoCombReloc]) ++
  (if f.defs then [ZOptionKind.Defs] else []) ++
  (if f.execStack then [ZOptionKind.ExecStack] else [ZOptionKind.NoExecStack]) ++
  (if f.initFirst then [ZOptionKind.InitFirst] else []) ++
  (if f.interPose then [ZOptionKind.InterPose] else []) ++
  (if f.loadFltr then [ZOptionKind.LoadFltr] else []) ++
  (if f.mulDefs then [ZOptionKind.MulDefs] else []) ++
  (if f.noCopyReloc then [ZOptionKind.NoCopyReloc] else []) ++
  (if f.noDefaultLib then [ZOptionKind.NoDefaultLib] else []) ++
  (if f.noDelete then [ZOptionKind.NoDelete] else []) ++
  (if f.noDLOpen then [ZOptionKind.NoDLOpen] else []) ++
  (if f.noDump then [ZOptionKind.NoDump] else []) ++
  (if f.relro then [ZOptionKind.Relro] else [ZOptionKind.NoRelro]) ++
  (if f.lazy then [ZOptionKind.Lazy] else [ZOptionKind.Now]) ++
  (if f.origin then [ZOptionKind.Origin] else [])

theorem count_ite_list (K : ZOptionKind) (c : Bool)
    (l1 l2 : List ZOptionKind) :
    List.count K (if c then l1 else l2) =
      if c then List.count K l1 else List.count K l2 := by
  cases c <;> rfl

end LinkerConfigModel

open LinkerConfigModel in
/-- C10: for every options bitmask, `setZOption` appends exactly one
kind of each pair CombReloc/NoCombReloc, ExecStack/NoExecStack,
Relro/NoRelro and Lazy/Now (the negative or eager kind when the bit is
clear), and appends each of the eleven unpaired kinds exactly when its
bit is set. -/
theorem setZOption_appended_kinds (f : ZFlags) :
    List.count ZOptionKind.CombReloc (setZOption f) = (if f.combReloc then 1 else 0) ∧
    List.count ZOptionKind.NoCombReloc (setZOption f) = (if f.combReloc then 0 else 1) ∧
    List.count ZOptionKind.ExecStack (setZOption f) = (if f.execStack then 1 else 0) ∧
    List.count ZOptionKind.NoExecStack (setZOption f) = (if f.execStack then 0 else 1) ∧
    List.count ZOptionKind.Relro (setZOption f) = (if f.relro then 1 else 0) ∧
    List.count ZOptionKind.NoRelro (setZOption f) = (if f.relro then 0 else 1) ∧
    List.count ZOptionKind.Lazy (setZOption f) = (if f.lazy then 1 else 0) ∧
    List.count ZOptionKind.Now (setZOption f) = (if f.lazy then 0 else 1) ∧
    List.count ZOptionKind.Defs (setZOption f) = (if f.defs then 1 else 0) ∧
    List.count ZOptionKind.InitFirst (setZOption f) = (if f.initFirst then 1 else 0) ∧
    List.count ZOptionKind.InterPose (setZOption f) = (if f.interPose then 1 else 0) ∧
    List.count ZOptionKind.LoadFltr (setZOption f) = (if f.loadFltr then 1 else 0) ∧
    List.count ZOptionKind.MulDefs (setZOption f) = (if f.mulDefs then 1 else 0) ∧
    List.count ZOptionKind.NoCopyReloc (setZOption f) = (if f.noCopyReloc then 1 else 0) ∧
    List.count ZOptionKind.NoDefaultLib (setZOption f) = (if f.noDefaultLib then 1 else 0) ∧
    List.count ZOptionKind.NoDelete (setZOption f) = (if f.noDelete then 1 else 0) ∧
    List.count ZOptionKind.NoDLOpen (setZOption f) = (if f.noDLOpen then 1 else 0) ∧
    List.count ZOptionKind.NoDump (setZOption f) = (if f.noDump then 1 else 0) ∧
    List.count ZOptionKind.Origin (setZOption f) = (if f.origin then 1 else 0) := by
  simp [setZOption, List.count_append, count_ite_list, List.count_cons,
    List.count_nil, beq_iff_eq]
